import Mathlib

/-!
Verification of the add-on registry and event-dispatch layer of
`weblate/addons/models.py` (a Django application module).

The embedding below models the ORM-persisted records (`Addon`, `Event`,
and the referenced `Component`) as plain Lean structures held in an
explicit database value, and the dispatch functions
(`handle_addon_event`, the signal receivers, `handle_addon_error`,
`Addon.save`, `Addon.configure_events`, …) as pure functions over that
database which additionally emit a trace of the observable actions
(log lines, handler invocations, error reports, uninstall hooks).
Exceptions raised by add-on handler methods are modelled by a result
type distinguishing a database error (`django.db.Error`) from every
other exception class, mirroring the two `except` arms of the source.
-/

/-- The two exception classes that the dispatch code distinguishes:
`django.db.Error` (re-raised) and every other `Exception` (handled). -/
inductive ExcClass where
  | dbError
  | otherError
deriving DecidableEq, Repr

/-- Outcome of invoking one add-on handler method: normal return or an
exception of one of the two distinguished classes. -/
inductive HandlerResult where
  | ok
  | raise (e : ExcClass)
deriving DecidableEq, Repr

/-- Modelled from the spec: a `Component` record of the host framework
(`weblate.trans.models.Component`, not part of this module) — a
translatable resource, owned by a project and possibly linked to another
component sharing its repository.  Only the fields this module reads are
modelled: the primary key, the owning project's key, and the
`linked_component` foreign key. -/
structure Component where
  pk : Nat
  project : Nat
  linked_component : Option Nat
deriving DecidableEq, Repr

/-- Modelled from the spec: a `Translation` record of the host framework;
this module only navigates from it to its component. -/
structure Translation where
  pk : Nat
  component : Component
deriving DecidableEq, Repr

/-- Modelled from the spec: a `Unit` record of the host framework; this
module only navigates from it to its translation. -/
structure UnitRec where
  pk : Nat
  translation : Translation
deriving DecidableEq, Repr

/-- The object passed as the `translation` keyword argument to
`handle_addon_event`: the receivers pass either the component itself or
an actual translation. -/
inductive TransObj where
  | comp (c : Component)
  | trans (t : Translation)
deriving DecidableEq, Repr

/-- The object passed as the `store` keyword argument by the receivers:
an author, a unit, the `created` flag, or a loaded store file. -/
inductive StoreObj where
  | author (s : String)
  | unit (u : UnitRec)
  | created (b : Bool)
  | file (s : String)
deriving DecidableEq, Repr

/-- The keyword arguments a receiver forwards into `handle_addon_event`
(`translation=...` always, `store=...` for some signals). -/
structure Kwargs where
  translation : TransObj
  store : Option StoreObj := none
deriving DecidableEq, Repr

/-- Argument vector of one handler-method invocation: either the keyword
arguments of `handle_addon_event`, or the positional arguments of the
direct `addon.addon.post_update(component, previous_head, skip_push)`
call in the `post_update` receiver. -/
inductive ArgV where
  | kw (kwargs : Kwargs)
  | postUpdateArgs (component : Component) (previous_head : String) (skip_push : Bool)
deriving DecidableEq, Repr

/-- Modelled from the spec: an add-on plugin class, as the class-loading
registry resolves it.  It carries the class-level scope flags read by
`Addon.save`, the `alert` attribute and `can_install` check used on the
error path, and its handler methods, looked up by name
(`hasattr`/`getattr` in the source). -/
structure AddonClass where
  project_scope : Bool
  repo_scope : Bool
  alert : Bool
  can_install : Component → Bool
  methods : String → Option (ArgV → HandlerResult)

/-- Modelled from the spec: the module-level `ADDONS = ClassLoader(...)`
registry, mapping a configured add-on name to its implementing class.
Lookups made during dispatch are for installed add-ons, whose names are
registered, so the map is total here. -/
abbrev Registry := String → AddonClass

/-- An `Addon` installation record (the persisted model): primary key,
`component` foreign key (by primary key), stored add-on `name`, the
configuration and state JSON blobs (opaque here), and the two scope
flags. -/
structure Addon where
  pk : Nat
  component : Nat
  name : String
  configuration : String
  state : String
  project_scope : Bool
  repo_scope : Bool
deriving DecidableEq, Repr

/-- An `Event` subscription record linking an installation (by primary
key) to an event type; `(addon, event)` is unique together. -/
structure EventRec where
  addon : Nat
  event : Nat
deriving DecidableEq, Repr

/-- The database tables this module touches. -/
structure DB where
  components : List Component
  addons : List Addon
  events : List EventRec
deriving DecidableEq, Repr

/-- Foreign-key dereference: find the component with the given primary
key. -/
def findComponent (cs : List Component) (pk : Nat) : Option Component :=
  cs.find? (fun c => c.pk == pk)

/-- Event type constants. Modelled from the spec: the numeric constants
live in `weblate.addons.events`, outside this module; only their
distinctness and their association to handler-method names matter. -/
def EVENT_POST_PUSH : Nat := 1

def EVENT_POST_UPDATE : Nat := 2

def EVENT_PRE_COMMIT : Nat := 3

def EVENT_POST_COMMIT : Nat := 4

def EVENT_POST_ADD : Nat := 5

def EVENT_UNIT_PRE_CREATE : Nat := 6

def EVENT_STORE_POST_LOAD : Nat := 7

def EVENT_PRE_UPDATE : Nat := 8

def EVENT_PRE_PUSH : Nat := 9

def EVENT_COMPONENT_UPDATE : Nat := 10

def EVENT_UNIT_POST_SAVE : Nat := 11

/-- Modelled from the spec: `EVENT_STRING` of `weblate.addons.events`
maps each event type to the name of the handler method add-ons register
for it. -/
def EVENT_STRING (event : Nat) : String :=
  if event = EVENT_POST_PUSH then "post_push"
  else if event = EVENT_POST_UPDATE then "post_update"
  else if event = EVENT_PRE_COMMIT then "pre_commit"
  else if event = EVENT_POST_COMMIT then "post_commit"
  else if event = EVENT_POST_ADD then "post_add"
  else if event = EVENT_UNIT_PRE_CREATE then "unit_pre_create"
  else if event = EVENT_STORE_POST_LOAD then "store_post_load"
  else if event = EVENT_PRE_UPDATE then "pre_update"
  else if event = EVENT_PRE_PUSH then "pre_push"
  else if event = EVENT_COMPONENT_UPDATE then "component_update"
  else if event = EVENT_UNIT_POST_SAVE then "unit_post_save"
  else ""

/-- `AddonQuerySet.filter_component`: the four `Q`-disjuncts of the
source, as a boolean predicate on one installation.  Foreign-key joins
(`component__project`, `component__linked_component`) dereference the
installation's component row; a join that finds no row matches no
record. -/
def appliesToComponent (db : DB) (component : Component) (a : Addon) : Bool :=
  (a.component == component.pk && a.project_scope == false)
  || ((match findComponent db.components a.component with
       | some ac => ac.project == component.project
       | none => false)
      && a.project_scope == true)
  || ((match findComponent db.components a.component with
       | some ac => ac.linked_component == some component.pk
       | none => false)
      && a.repo_scope == true)
  || ((some a.component == component.linked_component) && a.repo_scope == true)

/-- `AddonQuerySet.filter_component(component)`: the installations whose
scope covers the given component. -/
def filter_component (db : DB) (component : Component) : List Addon :=
  db.addons.filter (appliesToComponent db component)

/-- Modelled from the spec: `component.addons_cache` (defined on the
host framework's `Component`, outside this module) caches, per event
type, the add-ons applying to the component (its `filter_component`
result) that hold a subscription record for that event. -/
def addons_cache (db : DB) (component : Component) (event : Nat) : List Addon :=
  (filter_component db component).filter
    (fun a => db.events.any (fun r => r.addon == a.pk && r.event == event))

/-- `AddonQuerySet.filter_event(component, event)`: reads the per-event
add-on cache of the component. -/
def filter_event (db : DB) (component : Component) (event : Nat) : List Addon :=
  addons_cache db component event

/-- `Addon.addon_class`: resolve the implementing class from the
module-level registry by the installation's stored name. -/
def Addon.addon_class (reg : Registry) (a : Addon) : AddonClass :=
  reg a.name

/-- The live add-on object: the implementing class instantiated with the
installation record (`self.addon_class(self)`). -/
structure AddonInstance where
  cls : AddonClass
  storage : Addon

/-- `Addon.addon`: instantiate the resolved class with the record. -/
def Addon.addon (reg : Registry) (a : Addon) : AddonInstance :=
  ⟨Addon.addon_class reg a, a⟩

/-- `Addon.save`: re-derive both scope flags from the implementing
class, and, for a repo-scope add-on whose component links to another
component, reallocate the installation to the linked component before
persisting.  The cache drop and the `Change` history row (side effects
on the host framework) are not modelled; the returned record is what is
persisted. -/
def Addon.save (reg : Registry) (db : DB) (a : Addon) : Addon :=
  let cls := Addon.addon_class reg a
  let a := { a with project_scope := cls.project_scope, repo_scope := cls.repo_scope }
  if a.repo_scope then
    match (findComponent db.components a.component).bind Component.linked_component with
    | some l => { a with component := l }
    | none => a
  else a

/-- The `get_or_create` loop of `Addon.configure_events`: add a
subscription record for each listed event unless one already exists. -/
def getOrCreateEvents (pk : Nat) (events : List Nat) (recs : List EventRec) : List EventRec :=
  events.foldl
    (fun acc e => if (⟨pk, e⟩ : EventRec) ∈ acc then acc else acc ++ [⟨pk, e⟩]) recs

/-- `Addon.configure_events(events)`: `get_or_create` a subscription for
every listed event, then delete this installation's subscriptions for
events not in the list
(`self.event_set.exclude(event__in=events).delete()`). -/
def Addon.configure_events (db : DB) (a : Addon) (events : List Nat) : DB :=
  let recs := getOrCreateEvents a.pk events db.events
  { db with events := recs.filter (fun r => decide (r.addon ≠ a.pk ∨ r.event ∈ events)) }

/-- One observable action of the dispatch layer, in order of emission:
the dispatch entry itself, the `running`/`completed` debug logs wrapped
around each add-on, the handler invocation (with its result), the error
report, and the steps of disabling an installation (warning log,
removal `Change` row, alert deletion, `post_uninstall` hook). -/
inductive TraceEvent where
  | dispatched (event : Nat) (componentPk : Nat)
  | running (pk : Nat)
  | handlerCalled (pk : Nat) (result : HandlerResult)
  | completed (pk : Nat)
  | errorReported (pk : Nat)
  | disableWarning (pk : Nat)
  | removalRecorded (pk : Nat)
  | alertDeleted (pk : Nat)
  | postUninstall (pk : Nat)
deriving DecidableEq, Repr

/-- `Addon.delete`: record the removal in history, delete the add-on's
alert when its class defines one, delete the record (cascading to its
subscription records), and run the class's `post_uninstall` hook. -/
def Addon.deleteRecord (reg : Registry) (db : DB) (a : Addon) : List TraceEvent × DB :=
  let tr := [TraceEvent.removalRecorded a.pk]
  let tr := if (Addon.addon_class reg a).alert then tr ++ [TraceEvent.alertDeleted a.pk] else tr
  let db' : DB :=
    { db with
      addons := db.addons.filter (fun x => x.pk ≠ a.pk),
      events := db.events.filter (fun r => r.addon ≠ a.pk) }
  (tr ++ [TraceEvent.postUninstall a.pk], db')

/-- `Addon.disable`: log a warning and delete the installation. -/
def Addon.disable (reg : Registry) (db : DB) (a : Addon) : List TraceEvent × DB :=
  let d := Addon.deleteRecord reg db a
  (TraceEvent.disableWarning a.pk :: d.1, d.2)

/-- `handle_addon_error`: report the failure, then uninstall the add-on
when its class's `can_install` check no longer accepts the component. -/
def handle_addon_error (reg : Registry) (db : DB) (a : Addon) (component : Component) :
    List TraceEvent × DB :=
  let tr := [TraceEvent.errorReported a.pk]
  if (Addon.addon_class reg a).can_install component then (tr, db)
  else
    let d := Addon.disable reg db a
    (tr ++ d.1, d.2)

/-- One iteration of the `handle_addon_event` loop body for a single
add-on: the `running` log, the `hasattr` check (an object without a
method of the event's name is left untouched), the `getattr` invocation
with the dispatch's keyword arguments, and the three exits of the
`try`/`except`/`else`: normal completion, a re-raised database error
(third component `true`), or `handle_addon_error` for any other
exception. -/
def runStep (reg : Registry) (component : Component) (event_string : String)
    (kwargs : Kwargs) (db : DB) (a : Addon) : List TraceEvent × DB × Bool :=
  match (Addon.addon_class reg a).methods event_string with
  | none => ([TraceEvent.running a.pk, TraceEvent.completed a.pk], db, false)
  | some f =>
    match f (ArgV.kw kwargs) with
    | HandlerResult.ok =>
      ([TraceEvent.running a.pk, TraceEvent.handlerCalled a.pk HandlerResult.ok,
        TraceEvent.completed a.pk], db, false)
    | HandlerResult.raise ExcClass.dbError =>
      ([TraceEvent.running a.pk,
        TraceEvent.handlerCalled a.pk (HandlerResult.raise ExcClass.dbError)], db, true)
    | HandlerResult.raise ExcClass.otherError =>
      let e := handle_addon_error reg db a component
      (TraceEvent.running a.pk
        :: TraceEvent.handlerCalled a.pk (HandlerResult.raise ExcClass.otherError) :: e.1,
       e.2, false)

/-- The `for addon in ...` loop of `handle_addon_event`: run each add-on
in turn; a re-raised database error aborts the loop and propagates
(third component `true`), every other outcome lets the loop continue. -/
def dispatchLoop (reg : Registry) (component : Component) (event_string : String)
    (kwargs : Kwargs) (db : DB) : List Addon → List TraceEvent × DB × Bool
  | [] => ([], db, false)
  | a :: rest =>
    let s := runStep reg component event_string kwargs db a
    if s.2.2 then (s.1, s.2.1, true)
    else
      let r := dispatchLoop reg component event_string kwargs s.2.1 rest
      (s.1 ++ r.1, r.2.1, r.2.2)

/-- `handle_addon_event(sender, component, event_type, **kwargs)`: look
up the event's method name, iterate over the add-ons subscribed to the
event for the component, and run each.  The leading `dispatched` trace
entry records which event type was dispatched for which component. -/
def handle_addon_event (reg : Registry) (db : DB) (component : Component)
    (event_type : Nat) (kwargs : Kwargs) : List TraceEvent × DB × Bool :=
  let r := dispatchLoop reg component (EVENT_STRING event_type) kwargs db
    (filter_event db component event_type)
  (TraceEvent.dispatched event_type component.pk :: r.1, r.2.1, r.2.2)

/-- One iteration of the dedicated loop in the `post_update` receiver:
the handler is invoked positionally as
`addon.addon.post_update(component, previous_head, skip_push)` with no
`hasattr` guard, so a class lacking the method raises an
`AttributeError`, which the generic `except Exception` arm hands to
`handle_addon_error`. -/
def postUpdateStep (reg : Registry) (component : Component) (previous_head : String)
    (skip_push : Bool) (db : DB) (a : Addon) : List TraceEvent × DB × Bool :=
  match (Addon.addon_class reg a).methods "post_update" with
  | none =>
    let e := handle_addon_error reg db a component
    (TraceEvent.running a.pk :: e.1, e.2, false)
  | some f =>
    match f (ArgV.postUpdateArgs component previous_head skip_push) with
    | HandlerResult.ok =>
      ([TraceEvent.running a.pk, TraceEvent.handlerCalled a.pk HandlerResult.ok,
        TraceEvent.completed a.pk], db, false)
    | HandlerResult.raise ExcClass.dbError =>
      ([TraceEvent.running a.pk,
        TraceEvent.handlerCalled a.pk (HandlerResult.raise ExcClass.dbError)], db, true)
    | HandlerResult.raise ExcClass.otherError =>
      let e := handle_addon_error reg db a component
      (TraceEvent.running a.pk
        :: TraceEvent.handlerCalled a.pk (HandlerResult.raise ExcClass.otherError) :: e.1,
       e.2, false)

/-- The `for addon in ...` loop of the `post_update` receiver: when the
update came from a linked component (`child`), repo-scope add-ons are
skipped silently; otherwise each add-on runs as in the generic loop. -/
def postUpdateLoop (reg : Registry) (component : Component) (previous_head : String)
    (child : Bool) (skip_push : Bool) (db : DB) : List Addon → List TraceEvent × DB × Bool
  | [] => ([], db, false)
  | a :: rest =>
    if child && a.repo_scope then
      postUpdateLoop reg component previous_head child skip_push db rest
    else
      let s := postUpdateStep reg component previous_head skip_push db a
      if s.2.2 then (s.1, s.2.1, true)
      else
        let r := postUpdateLoop reg component previous_head child skip_push s.2.1 rest
        (s.1 ++ r.1, r.2.1, r.2.2)

/-- Receiver for `vcs_pre_push`. -/
def pre_push (reg : Registry) (db : DB) (component : Component) :
    List TraceEvent × DB × Bool :=
  handle_addon_event reg db component EVENT_PRE_PUSH { translation := TransObj.comp component }

/-- Receiver for `vcs_post_push`. -/
def post_push (reg : Registry) (db : DB) (component : Component) :
    List TraceEvent × DB × Bool :=
  handle_addon_event reg db component EVENT_POST_PUSH { translation := TransObj.comp component }

/-- Receiver for `vcs_post_update`: runs its own loop over the add-ons
subscribed to `EVENT_POST_UPDATE` for the component. -/
def post_update (reg : Registry) (db : DB) (component : Component) (previous_head : String)
    (child : Bool) (skip_push : Bool) : List TraceEvent × DB × Bool :=
  let r := postUpdateLoop reg component previous_head child skip_push db
    (filter_event db component EVENT_POST_UPDATE)
  (TraceEvent.dispatched EVENT_POST_UPDATE component.pk :: r.1, r.2.1, r.2.2)

/-- Receiver for `component_post_update`. -/
def component_update (reg : Registry) (db : DB) (component : Component) :
    List TraceEvent × DB × Bool :=
  handle_addon_event reg db component EVENT_COMPONENT_UPDATE
    { translation := TransObj.comp component }

/-- Receiver for `vcs_pre_update`. -/
def pre_update (reg : Registry) (db : DB) (component : Component) :
    List TraceEvent × DB × Bool :=
  handle_addon_event reg db component EVENT_PRE_UPDATE { translation := TransObj.comp component }

/-- Receiver for `vcs_pre_commit`: dispatches for the translation's
component, passing the translation and the author. -/
def pre_commit (reg : Registry) (db : DB) (translation : Translation) (author : String) :
    List TraceEvent × DB × Bool :=
  handle_addon_event reg db translation.component EVENT_PRE_COMMIT
    { translation := TransObj.trans translation, store := some (StoreObj.author author) }

/-- Receiver for `vcs_post_commit`. -/
def post_commit (reg : Registry) (db : DB) (component : Component) :
    List TraceEvent × DB × Bool :=
  handle_addon_event reg db component EVENT_POST_COMMIT { translation := TransObj.comp component }

/-- Receiver for `translation_post_add`. -/
def post_add (reg : Registry) (db : DB) (translation : Translation) :
    List TraceEvent × DB × Bool :=
  handle_addon_event reg db translation.component EVENT_POST_ADD
    { translation := TransObj.trans translation }

/-- Receiver for `unit_pre_create`. -/
def unit_pre_create_handler (reg : Registry) (db : DB) (unit : UnitRec) :
    List TraceEvent × DB × Bool :=
  handle_addon_event reg db unit.translation.component EVENT_UNIT_PRE_CREATE
    { translation := TransObj.trans unit.translation, store := some (StoreObj.unit unit) }

/-- Receiver for `post_save` of `Unit`. -/
def unit_post_save_handler (reg : Registry) (db : DB) (inst : UnitRec) (created : Bool) :
    List TraceEvent × DB × Bool :=
  handle_addon_event reg db inst.translation.component EVENT_UNIT_POST_SAVE
    { translation := TransObj.trans inst.translation,
      store := some (StoreObj.created created) }

/-- Receiver for `store_post_load`. -/
def store_post_load_handler (reg : Registry) (db : DB) (translation : Translation)
    (store : String) : List TraceEvent × DB × Bool :=
  handle_addon_event reg db translation.component EVENT_STORE_POST_LOAD
    { translation := TransObj.trans translation, store := some (StoreObj.file store) }

/-! Concrete sample add-on classes, registry and database rows, used to
evaluate the theorems below on closed inputs. -/

/-- A handler that returns normally. -/
def hOk : ArgV → HandlerResult := fun _ => HandlerResult.ok

/-- A handler that raises a database error. -/
def hDb : ArgV → HandlerResult := fun _ => HandlerResult.raise ExcClass.dbError

/-- A handler that raises a non-database exception. -/
def hFail : ArgV → HandlerResult := fun _ => HandlerResult.raise ExcClass.otherError

/-- A plugin class with no handler methods at all. -/
def clsNoMethod : AddonClass :=
  ⟨false, false, false, fun _ => true, fun _ => none⟩

/-- A plugin class whose every handler returns normally. -/
def clsOk : AddonClass :=
  ⟨false, false, false, fun _ => true, fun _ => some hOk⟩

/-- A plugin class whose every handler raises a database error. -/
def clsDb : AddonClass :=
  ⟨false, false, false, fun _ => true, fun _ => some hDb⟩

/-- A plugin class whose handlers raise a generic exception and whose
`can_install` check rejects every component. -/
def clsFail : AddonClass :=
  ⟨false, false, false, fun _ => false, fun _ => some hFail⟩

/-- A plugin class whose handlers raise a generic exception but whose
`can_install` check still accepts every component. -/
def clsFailKeep : AddonClass :=
  ⟨false, false, false, fun _ => true, fun _ => some hFail⟩

/-- A repo-scope plugin class. -/
def clsRepo : AddonClass :=
  ⟨false, true, false, fun _ => true, fun _ => some hOk⟩

/-- A sample registry resolving a handful of names. -/
def regEx : Registry := fun n =>
  if n = "addon-ok" then clsOk
  else if n = "addon-db" then clsDb
  else if n = "addon-fail" then clsFail
  else if n = "addon-failkeep" then clsFailKeep
  else if n = "addon-repo" then clsRepo
  else clsNoMethod

/-- A stand-alone component. -/
def comp1 : Component := ⟨1, 1, none⟩

/-- A component linked to `comp3`. -/
def comp2 : Component := ⟨2, 1, some 3⟩

/-- The component `comp2` links to. -/
def comp3 : Component := ⟨3, 1, none⟩

/-- An installation of the database-error add-on on `comp1`. -/
def adDb1 : Addon := ⟨1, 1, "addon-db", "{}", "{}", false, false⟩

/-- An installation of the well-behaved add-on on `comp1`. -/
def adOk2 : Addon := ⟨2, 1, "addon-ok", "{}", "{}", false, false⟩

/-- An installation of the failing, no-longer-installable add-on on
`comp1`. -/
def adFail3 : Addon := ⟨3, 1, "addon-fail", "{}", "{}", false, false⟩

/-- An installation of the failing but still installable add-on on
`comp1`. -/
def adFailKeep4 : Addon := ⟨4, 1, "addon-failkeep", "{}", "{}", false, false⟩

/-- An installation of the method-less add-on on `comp1`. -/
def adNoMethod5 : Addon := ⟨5, 1, "addon-nomethod", "{}", "{}", false, false⟩

/-- An installation of the repo-scope add-on on `comp2`. -/
def adRepo6 : Addon := ⟨6, 2, "addon-repo", "{}", "{}", false, true⟩

/-- Sample keyword arguments. -/
def kwEx : Kwargs := { translation := TransObj.comp comp1 }

/-- Database for the database-error dispatch scenario: both add-ons are
installed on `comp1` and subscribed to `EVENT_PRE_PUSH`; the
database-error one comes first. -/
def dbC1 : DB :=
  ⟨[comp1], [adDb1, adOk2], [⟨1, EVENT_PRE_PUSH⟩, ⟨2, EVENT_PRE_PUSH⟩]⟩

/-- C1, as stated, is false for a handler raising a database error: the
error propagates to the caller of the dispatch (third component `true`)
and the remaining subscribed add-on (`adOk2`, pk 2) is never started. -/
theorem c1_counterexample :
    (handle_addon_event regEx dbC1 comp1 EVENT_PRE_PUSH kwEx).2.2 = true
    ∧ TraceEvent.running 2 ∉ (handle_addon_event regEx dbC1 comp1 EVENT_PRE_PUSH kwEx).1 := by
  decide

/-- C1 (amended): an exception raised by one add-on's handler method is
contained by the dispatch loop, provided it is not a database error: it
does not propagate to the caller, and dispatch continues with the
remaining add-ons (the overall run is the failing add-on's own chunk —
handler invocation, error report and possible uninstall — followed by
the untouched run of the remaining add-ons, whose outcome alone decides
whether the dispatch raises).  A database error instead aborts the loop
and propagates. -/
theorem c1_theorem (reg : Registry) (component : Component) (event_string : String)
    (kwargs : Kwargs) (db : DB) (a : Addon) (rest : List Addon) (f : ArgV → HandlerResult)
    (hf : (Addon.addon_class reg a).methods event_string = some f)
    (hr : f (ArgV.kw kwargs) = HandlerResult.raise ExcClass.otherError) :
    dispatchLoop reg component event_string kwargs db (a :: rest)
      = ((TraceEvent.running a.pk
            :: TraceEvent.handlerCalled a.pk (HandlerResult.raise ExcClass.otherError)
            :: (handle_addon_error reg db a component).1)
          ++ (dispatchLoop reg component event_string kwargs
                (handle_addon_error reg db a component).2 rest).1,
         (dispatchLoop reg component event_string kwargs
            (handle_addon_error reg db a component).2 rest).2.1,
         (dispatchLoop reg component event_string kwargs
            (handle_addon_error reg db a component).2 rest).2.2) := by
  simp [dispatchLoop, runStep, hf, hr]

/-- Closed instance of `c1_theorem`: the failing add-on `adFail3` ahead
of `adOk2`. -/
theorem c1_witness :
    (Addon.addon_class regEx adFail3).methods "pre_push" = some hFail
    ∧ hFail (ArgV.kw kwEx) = HandlerResult.raise ExcClass.otherError
    ∧ dispatchLoop regEx comp1 "pre_push" kwEx dbC1 [adFail3, adOk2]
      = ((TraceEvent.running adFail3.pk
            :: TraceEvent.handlerCalled adFail3.pk (HandlerResult.raise ExcClass.otherError)
            :: (handle_addon_error regEx dbC1 adFail3 comp1).1)
          ++ (dispatchLoop regEx comp1 "pre_push" kwEx
                (handle_addon_error regEx dbC1 adFail3 comp1).2 [adOk2]).1,
         (dispatchLoop regEx comp1 "pre_push" kwEx
            (handle_addon_error regEx dbC1 adFail3 comp1).2 [adOk2]).2.1,
         (dispatchLoop regEx comp1 "pre_push" kwEx
            (handle_addon_error regEx dbC1 adFail3 comp1).2 [adOk2]).2.2) :=
  ⟨rfl, rfl,
   c1_theorem regEx comp1 "pre_push" kwEx dbC1 adFail3 [adOk2] hFail rfl rfl⟩

/-- The three scope rules as the spec phrases them: attached directly to
the component with `project_scope` false; attached to any component of
the same project with `project_scope` true; or attached to a component
linked to the given one by repository — in either direction of the
`linked_component` link — with `repo_scope` true. -/
def specScopeRules (db : DB) (component : Component) (a : Addon) : Prop :=
  (a.component = component.pk ∧ a.project_scope = false)
  ∨ ((∃ ac, findComponent db.components a.component = some ac
        ∧ ac.project = component.project)
      ∧ a.project_scope = true)
  ∨ (((∃ ac, findComponent db.components a.component = some ac
        ∧ ac.linked_component = some component.pk)
      ∨ component.linked_component = some a.component)
      ∧ a.repo_scope = true)

set_option maxRecDepth 8000 in
/-- The source predicate of `filter_component` agrees with the spec's
three scope rules on every installation. -/
theorem appliesToComponent_iff (db : DB) (component : Component) (a : Addon) :
    appliesToComponent db component a = true ↔ specScopeRules db component a := by
  unfold appliesToComponent specScopeRules
  rcases h : findComponent db.components a.component with _ | ac <;>
    simp [h] <;> tauto

/-- C2: `filter_component` returns exactly the installations satisfying
one of the spec's three boolean-flag scope rules: attached directly to
the component with `project_scope` false, attached to a component of the
same project with `project_scope` true, or attached to a component
linked to it by repository (in either direction of the link) with
`repo_scope` true. -/
theorem c2_theorem (db : DB) (component : Component) (a : Addon) :
    a ∈ filter_component db component ↔ a ∈ db.addons ∧ specScopeRules db component a := by
  rw [filter_component, List.mem_filter, appliesToComponent_iff]

/-- The error path (`handle_addon_error`, including a possible disable)
never performs a handler invocation. -/
theorem handlerCalled_not_in_error (reg : Registry) (db : DB) (a : Addon) (c : Component)
    (pk : Nat) (r : HandlerResult) :
    TraceEvent.handlerCalled pk r ∉ (handle_addon_error reg db a c).1 := by
  cases hci : (Addon.addon_class reg a).can_install c <;>
    cases hal : (Addon.addon_class reg a).alert <;>
      simp [handle_addon_error, Addon.disable, Addon.deleteRecord, hci, hal]

/-- A handler invocation recorded by one loop iteration comes from the
iterated add-on itself: the method was found under the event's name on
its class and was applied to the dispatch's keyword arguments. -/
theorem handlerCalled_mem_step (reg : Registry) (component : Component) (es : String)
    (kwargs : Kwargs) (db : DB) (a : Addon) (pk : Nat) (r : HandlerResult)
    (hmem : TraceEvent.handlerCalled pk r ∈ (runStep reg component es kwargs db a).1) :
    a.pk = pk ∧ ∃ f, (Addon.addon_class reg a).methods es = some f
      ∧ r = f (ArgV.kw kwargs) := by
  cases hm : (Addon.addon_class reg a).methods es with
  | none =>
    simp [runStep, hm] at hmem
  | some f =>
    cases hr : f (ArgV.kw kwargs) with
    | ok =>
      simp [runStep, hm, hr] at hmem
      exact ⟨hmem.1.symm, f, rfl, by rw [hr, hmem.2]⟩
    | raise e =>
      cases e with
      | dbError =>
        simp [runStep, hm, hr] at hmem
        exact ⟨hmem.1.symm, f, rfl, by rw [hr, hmem.2]⟩
      | otherError =>
        simp [runStep, hm, hr] at hmem
        rcases hmem with ⟨hpk, hres⟩ | hin
        · exact ⟨hpk.symm, f, rfl, by rw [hr, hres]⟩
        · exact absurd hin (handlerCalled_not_in_error reg db a component pk r)

/-- A handler invocation recorded anywhere in the dispatch loop comes
from one of the add-ons of the iterated list. -/
theorem handlerCalled_mem_loop (reg : Registry) (component : Component) (es : String)
    (kwargs : Kwargs) (db : DB) (l : List Addon) (pk : Nat) (r : HandlerResult)
    (hmem : TraceEvent.handlerCalled pk r ∈ (dispatchLoop reg component es kwargs db l).1) :
    ∃ a ∈ l, a.pk = pk ∧ ∃ f, (Addon.addon_class reg a).methods es = some f
      ∧ r = f (ArgV.kw kwargs) := by
  induction l generalizing db with
  | nil => simp [dispatchLoop] at hmem
  | cons a rest ih =>
    rw [dispatchLoop] at hmem
    by_cases hs : (runStep reg component es kwargs db a).2.2
    · rw [if_pos hs] at hmem
      obtain ⟨hpk, hf⟩ := handlerCalled_mem_step reg component es kwargs db a pk r hmem
      exact ⟨a, List.mem_cons_self a rest, hpk, hf⟩
    · rw [if_neg hs] at hmem
      rcases List.mem_append.mp hmem with hin | hin
      · obtain ⟨hpk, hf⟩ := handlerCalled_mem_step reg component es kwargs db a pk r hin
        exact ⟨a, List.mem_cons_self a rest, hpk, hf⟩
      · obtain ⟨b, hb, hres⟩ := ih _ hin
        exact ⟨b, List.mem_cons_of_mem a hb, hres⟩

/-- C3: a dispatch considers only the add-ons subscribed to the event
for the component (any handler invocation in its trace belongs to an
add-on of `filter_event`, its method was looked up by the event's name
string, and it was invoked with the dispatch's keyword arguments), and
an add-on object lacking a method of that name is passed over by its
loop iteration without any handler call, without error, and without
touching the database. -/
theorem c3_theorem (reg : Registry) (db : DB) (component : Component) (event_type : Nat)
    (kwargs : Kwargs) :
    (∀ pk r, TraceEvent.handlerCalled pk r
        ∈ (handle_addon_event reg db component event_type kwargs).1 →
      ∃ a ∈ filter_event db component event_type, a.pk = pk
        ∧ ∃ f, (Addon.addon_class reg a).methods (EVENT_STRING event_type) = some f
          ∧ r = f (ArgV.kw kwargs))
    ∧ (∀ db' a, (Addon.addon_class reg a).methods (EVENT_STRING event_type) = none →
        runStep reg component (EVENT_STRING event_type) kwargs db' a
          = ([TraceEvent.running a.pk, TraceEvent.completed a.pk], db', false)) := by
  constructor
  · intro pk r hmem
    rw [handle_addon_event] at hmem
    simp only [List.mem_cons] at hmem
    rcases hmem with hdisp | hin
    · exact absurd hdisp (by simp)
    · exact handlerCalled_mem_loop reg component (EVENT_STRING event_type) kwargs db _ pk r hin
  · intro db' a h
    simp [runStep, h]

/-- Closed instance of `c3_theorem`: the method-less add-on `adNoMethod5`
is skipped by its iteration without a handler call and without error. -/
theorem c3_witness :
    runStep regEx comp1 (EVENT_STRING EVENT_PRE_PUSH) kwEx dbC1 adNoMethod5
      = ([TraceEvent.running adNoMethod5.pk, TraceEvent.completed adNoMethod5.pk],
         dbC1, false) :=
  (c3_theorem regEx dbC1 comp1 EVENT_PRE_PUSH kwEx).2 dbC1 adNoMethod5 rfl

/-- C4: every lifecycle signal of the host application has a registered
receiver dispatching exactly the corresponding add-on event type for
the affected component: `vcs_pre_push`/`vcs_post_push` →
`EVENT_PRE_PUSH`/`EVENT_POST_PUSH`, `vcs_pre_update`/`vcs_post_update`
(pull) → `EVENT_PRE_UPDATE`/`EVENT_POST_UPDATE`,
`vcs_pre_commit`/`vcs_post_commit` → `EVENT_PRE_COMMIT`/
`EVENT_POST_COMMIT`, `translation_post_add` → `EVENT_POST_ADD`,
`unit_pre_create` → `EVENT_UNIT_PRE_CREATE`, `post_save` of `Unit` →
`EVENT_UNIT_POST_SAVE`, `store_post_load` → `EVENT_STORE_POST_LOAD`,
and `component_post_update` → `EVENT_COMPONENT_UPDATE`; for the
translation- and unit-level signals the affected component is the
translation's component. -/
theorem c4_theorem (reg : Registry) (db : DB) (c : Component) (t : Translation)
    (u : UnitRec) (author store previous_head : String) (child skip_push created : Bool) :
    ((pre_push reg db c).1.head? = some (TraceEvent.dispatched EVENT_PRE_PUSH c.pk))
    ∧ ((post_push reg db c).1.head? = some (TraceEvent.dispatched EVENT_POST_PUSH c.pk))
    ∧ ((pre_update reg db c).1.head? = some (TraceEvent.dispatched EVENT_PRE_UPDATE c.pk))
    ∧ ((post_update reg db c previous_head child skip_push).1.head?
        = some (TraceEvent.dispatched EVENT_POST_UPDATE c.pk))
    ∧ ((pre_commit reg db t author).1.head?
        = some (TraceEvent.dispatched EVENT_PRE_COMMIT t.component.pk))
    ∧ ((post_commit reg db c).1.head? = some (TraceEvent.dispatched EVENT_POST_COMMIT c.pk))
    ∧ ((post_add reg db t).1.head?
        = some (TraceEvent.dispatched EVENT_POST_ADD t.component.pk))
    ∧ ((unit_pre_create_handler reg db u).1.head?
        = some (TraceEvent.dispatched EVENT_UNIT_PRE_CREATE u.translation.component.pk))
    ∧ ((unit_post_save_handler reg db u created).1.head?
        = some (TraceEvent.dispatched EVENT_UNIT_POST_SAVE u.translation.component.pk))
    ∧ ((store_post_load_handler reg db t store).1.head?
        = some (TraceEvent.dispatched EVENT_STORE_POST_LOAD t.component.pk))
    ∧ ((component_update reg db c).1.head?
        = some (TraceEvent.dispatched EVENT_COMPONENT_UPDATE c.pk)) :=
  ⟨rfl, rfl, rfl, rfl, rfl, rfl, rfl, rfl, rfl, rfl, rfl⟩

/-- The error path's trace does not depend on the database state. -/
theorem handle_addon_error_trace_db (reg : Registry) (db1 db2 : DB) (a : Addon)
    (c : Component) :
    (handle_addon_error reg db1 a c).1 = (handle_addon_error reg db2 a c).1 := by
  cases hci : (Addon.addon_class reg a).can_install c <;>
    simp [handle_addon_error, Addon.disable, Addon.deleteRecord, hci]

/-- One loop iteration emits the same trace whatever the database state
is when it starts. -/
theorem runStep_trace_db (reg : Registry) (component : Component) (es : String)
    (kwargs : Kwargs) (db1 db2 : DB) (a : Addon) :
    (runStep reg component es kwargs db1 a).1 = (runStep reg component es kwargs db2 a).1 := by
  cases hm : (Addon.addon_class reg a).methods es with
  | none => simp [runStep, hm]
  | some f =>
    cases hr : f (ArgV.kw kwargs) with
    | ok => simp [runStep, hm, hr]
    | raise e =>
      cases e with
      | dbError => simp [runStep, hm, hr]
      | otherError =>
        simp [runStep, hm, hr]
        exact handle_addon_error_trace_db reg db1 db2 a component

/-- An iteration whose add-on does not raise a database error lets the
loop continue (its raised flag is off). -/
theorem runStep_not_raised (reg : Registry) (component : Component) (es : String)
    (kwargs : Kwargs) (db : DB) (a : Addon)
    (h : ∀ f, (Addon.addon_class reg a).methods es = some f →
      f (ArgV.kw kwargs) ≠ HandlerResult.raise ExcClass.dbError) :
    (runStep reg component es kwargs db a).2.2 = false := by
  cases hm : (Addon.addon_class reg a).methods es with
  | none => simp [runStep, hm]
  | some f =>
    cases hr : f (ArgV.kw kwargs) with
    | ok => simp [runStep, hm, hr]
    | raise e =>
      cases e with
      | dbError => exact absurd hr (h f hm)
      | otherError => simp [runStep, hm, hr]

/-- When no iterated add-on raises a database error, the loop's trace is
the concatenation, in list order, of the complete per-add-on chunks. -/
theorem dispatchLoop_trace_join (reg : Registry) (component : Component) (es : String)
    (kwargs : Kwargs) (db : DB) (l : List Addon)
    (h : ∀ a ∈ l, ∀ f, (Addon.addon_class reg a).methods es = some f →
      f (ArgV.kw kwargs) ≠ HandlerResult.raise ExcClass.dbError) :
    (dispatchLoop reg component es kwargs db l).1
      = (l.map (fun a => (runStep reg component es kwargs db a).1)).flatten := by
  induction l generalizing db with
  | nil => simp [dispatchLoop]
  | cons a rest ih =>
    have hs : (runStep reg component es kwargs db a).2.2 = false :=
      runStep_not_raised reg component es kwargs db a (h a (List.mem_cons_self a rest))
    rw [dispatchLoop, if_neg (by rw [hs]; exact Bool.false_ne_true)]
    show (runStep reg component es kwargs db a).1
        ++ (dispatchLoop reg component es kwargs (runStep reg component es kwargs db a).2.1 rest).1
      = _
    rw [ih ((runStep reg component es kwargs db a).2.1)
      (fun b hb => h b (List.mem_cons_of_mem a hb))]
    rw [List.map_cons, List.flatten_cons]
    congr 1
    have : (fun b => (runStep reg component es kwargs (runStep reg component es kwargs db a).2.1 b).1)
        = fun b => (runStep reg component es kwargs db b).1 := by
      funext b
      exact runStep_trace_db reg component es kwargs _ db b
    rw [this]

/-- Every per-add-on chunk opens with that add-on's own `running` log
entry. -/
theorem runStep_trace_head (reg : Registry) (component : Component) (es : String)
    (kwargs : Kwargs) (db : DB) (a : Addon) :
    ((runStep reg component es kwargs db a).1).head? = some (TraceEvent.running a.pk) := by
  cases hm : (Addon.addon_class reg a).methods es with
  | none => simp [runStep, hm]
  | some f =>
    cases hr : f (ArgV.kw kwargs) with
    | ok => simp [runStep, hm, hr]
    | raise e => cases e <;> simp [runStep, hm, hr]

/-- C5: dispatch is sequential — provided no handler raises a database
error (which would abort the loop), the dispatch trace is exactly the
`dispatched` entry followed by the concatenation, in the order produced
by the add-on query, of each subscribed add-on's complete chunk (its
`running` entry, its handler invocation and its outcome); every chunk
opens with its own add-on's `running` entry, so no two handler
invocations interleave and each handler returns or raises before the
next add-on's chunk starts. -/
theorem c5_theorem (reg : Registry) (db : DB) (component : Component) (event_type : Nat)
    (kwargs : Kwargs)
    (h : ∀ a ∈ filter_event db component event_type, ∀ f,
      (Addon.addon_class reg a).methods (EVENT_STRING event_type) = some f →
      f (ArgV.kw kwargs) ≠ HandlerResult.raise ExcClass.dbError) :
    (handle_addon_event reg db component event_type kwargs).1
      = TraceEvent.dispatched event_type component.pk
        :: ((filter_event db component event_type).map
            (fun a => (runStep reg component (EVENT_STRING event_type) kwargs db a).1)).flatten
    ∧ ∀ a : Addon,
        ((runStep reg component (EVENT_STRING event_type) kwargs db a).1).head?
          = some (TraceEvent.running a.pk) := by
  constructor
  · rw [handle_addon_event]
    rw [dispatchLoop_trace_join reg component (EVENT_STRING event_type) kwargs db
      (filter_event db component event_type) h]
  · exact fun a => runStep_trace_head reg component (EVENT_STRING event_type) kwargs db a

/-- Database for the sequential-dispatch scenario: a well-behaved add-on
and a method-less one, both subscribed to `EVENT_PRE_PUSH`. -/
def dbC5 : DB :=
  ⟨[comp1], [adOk2, adNoMethod5], [⟨2, EVENT_PRE_PUSH⟩, ⟨5, EVENT_PRE_PUSH⟩]⟩

/-- Closed instance of `c5_theorem` on `dbC5`. -/
theorem c5_witness :
    (handle_addon_event regEx dbC5 comp1 EVENT_PRE_PUSH kwEx).1
      = TraceEvent.dispatched EVENT_PRE_PUSH comp1.pk
        :: ((filter_event dbC5 comp1 EVENT_PRE_PUSH).map
            (fun a => (runStep regEx comp1 (EVENT_STRING EVENT_PRE_PUSH) kwEx dbC5 a).1)).flatten
    ∧ ∀ a : Addon,
        ((runStep regEx comp1 (EVENT_STRING EVENT_PRE_PUSH) kwEx dbC5 a).1).head?
          = some (TraceEvent.running a.pk) :=
  c5_theorem regEx dbC5 comp1 EVENT_PRE_PUSH kwEx (by
    intro a ha f hf
    have hl : filter_event dbC5 comp1 EVENT_PRE_PUSH = [adOk2, adNoMethod5] := by decide
    rw [hl] at ha
    simp only [List.mem_cons, List.not_mem_nil, or_false] at ha
    rcases ha with ha | ha
    · subst ha
      rw [show (Addon.addon_class regEx adOk2).methods (EVENT_STRING EVENT_PRE_PUSH)
          = some hOk from rfl] at hf
      cases hf
      decide
    · subst ha
      exact Option.noConfusion (hf.symm.trans (show (none : Option (ArgV → HandlerResult))
        = none from rfl)))

/-- A second installation of the well-behaved add-on, sharing its stored
name with `adOk2`. -/
def adOk7 : Addon := ⟨7, 1, "addon-ok", "{}", "{}", false, false⟩

/-- C6: the implementing class of an installation is the registry entry
for its stored name, the live add-on object is that class instantiated
with the installation record, and two installations with the same name
resolve to the same class. -/
theorem c6_theorem (reg : Registry) (a b : Addon) :
    Addon.addon_class reg a = reg a.name
    ∧ (a.name = b.name → Addon.addon_class reg a = Addon.addon_class reg b)
    ∧ Addon.addon reg a = ⟨Addon.addon_class reg a, a⟩ := by
  refine ⟨rfl, ?_, rfl⟩
  intro h
  unfold Addon.addon_class
  rw [h]

/-- Closed instance of `c6_theorem`: the same-named installations
`adOk2` and `adOk7` resolve to the same class. -/
theorem c6_witness :
    adOk2.name = adOk7.name
    ∧ Addon.addon_class regEx adOk2 = Addon.addon_class regEx adOk7 :=
  ⟨rfl, (c6_theorem regEx adOk2 adOk7).2.1 rfl⟩

/-- C7: saving an installation overwrites both scope flags with the
implementing class's values whatever the record held; a repo-scope
installation whose component links to another component is reattached
to the linked component before persisting; and — given the host
invariant that a linked component does not itself link onward — after
any save a repo-scope installation is never attached to a component
that links to another repository. -/
theorem c7_theorem (reg : Registry) (db : DB) (a : Addon) :
    ((Addon.save reg db a).project_scope = (Addon.addon_class reg a).project_scope
      ∧ (Addon.save reg db a).repo_scope = (Addon.addon_class reg a).repo_scope)
    ∧ (∀ ac l, (Addon.addon_class reg a).repo_scope = true →
        findComponent db.components a.component = some ac →
        ac.linked_component = some l →
        (Addon.save reg db a).component = l)
    ∧ ((∀ c ∈ db.components, ∀ l cl, c.linked_component = some l →
          findComponent db.components l = some cl → cl.linked_component = none) →
        (Addon.save reg db a).repo_scope = true →
        ∀ c', findComponent db.components (Addon.save reg db a).component = some c' →
          c'.linked_component = none) := by
  cases hrs : (Addon.addon_class reg a).repo_scope with
  | false =>
    refine ⟨⟨?_, ?_⟩, ?_, ?_⟩
    · simp [Addon.save, hrs]
    · simp [Addon.save, hrs]
    · intro ac l hsc _ _
      exact absurd hsc Bool.false_ne_true
    · intro _ hsc
      rw [show (Addon.save reg db a).repo_scope = false by simp [Addon.save, hrs]] at hsc
      exact absurd hsc Bool.false_ne_true
  | true =>
    cases hb : (findComponent db.components a.component).bind Component.linked_component with
    | none =>
      refine ⟨⟨?_, ?_⟩, ?_, ?_⟩
      · simp [Addon.save, hrs, hb]
      · simp [Addon.save, hrs, hb]
      · intro ac l _ hfind hl
        rw [hfind] at hb
        simp [hl] at hb
      · intro _ _ c' hc'
        rw [show (Addon.save reg db a).component = a.component by simp [Addon.save, hrs, hb]]
          at hc'
        rcases hfind : findComponent db.components a.component with _ | ac
        · rw [hfind] at hc'
          exact Option.noConfusion hc'
        · rw [hfind] at hb hc'
          simp at hb
          cases hc'
          exact hb
    | some l =>
      have hsave : (Addon.save reg db a).component = l := by simp [Addon.save, hrs, hb]
      refine ⟨⟨?_, ?_⟩, ?_, ?_⟩
      · simp [Addon.save, hrs, hb]
      · simp [Addon.save, hrs, hb]
      · intro ac l' _ hfind hl
        rw [hfind] at hb
        simp [hl] at hb
        rw [hsave, hb]
      · intro hinv _ c' hc'
        rcases hfind : findComponent db.components a.component with _ | ac
        · rw [hfind] at hb
          exact Option.noConfusion hb
        · rw [hfind] at hb
          simp at hb
          have hmem : ac ∈ db.components := List.mem_of_find?_eq_some hfind
          rw [hsave] at hc'
          exact hinv ac hmem l c' hb hc'

/-- Database for the save-reallocation scenario: `comp2` links to
`comp3`, and the repo-scope add-on is installed on `comp2`. -/
def dbC7 : DB := ⟨[comp2, comp3], [adRepo6], []⟩

/-- Closed instance of `c7_theorem`: after saving, the repo-scope
installation `adRepo6` sits on a component with no onward link. -/
theorem c7_witness :
    (Addon.save regEx dbC7 adRepo6).repo_scope = true
    ∧ ∀ c', findComponent dbC7.components (Addon.save regEx dbC7 adRepo6).component = some c' →
        c'.linked_component = none :=
  ⟨by decide, (c7_theorem regEx dbC7 adRepo6).2.2 (by
      intro c hc l cl hlc hfind
      replace hc : c ∈ [comp2, comp3] := hc
      simp only [List.mem_cons, List.not_mem_nil, or_false] at hc
      rcases hc with hc | hc
      · subst hc
        rw [show comp2.linked_component = some 3 from rfl] at hlc
        cases hlc
        rw [show findComponent dbC7.components 3 = some comp3 from rfl] at hfind
        cases hfind
        rfl
      · subst hc
        exact Option.noConfusion hlc) (by decide)⟩

/-- C8: the error path of dispatch depends on the exception class.  A
database error is re-raised unchanged to the caller — the loop stops at
the failing add-on with the database untouched and the raised flag set —
and no add-on is removed.  Any other exception is reported
(`errorReported` appears in the chunk), and the installation is then
disabled — its removal recorded, its `post_uninstall` hook run, its
record deleted from the table — if and only if the class's `can_install`
check fails for the component; when `can_install` still accepts the
component nothing is removed and the database is unchanged. -/
theorem c8_theorem (reg : Registry) (component : Component) (es : String)
    (kwargs : Kwargs) (db : DB) (a : Addon) (rest : List Addon) (f : ArgV → HandlerResult)
    (hf : (Addon.addon_class reg a).methods es = some f) :
    (f (ArgV.kw kwargs) = HandlerResult.raise ExcClass.dbError →
      dispatchLoop reg component es kwargs db (a :: rest)
        = ([TraceEvent.running a.pk,
            TraceEvent.handlerCalled a.pk (HandlerResult.raise ExcClass.dbError)], db, true))
    ∧ (f (ArgV.kw kwargs) = HandlerResult.raise ExcClass.otherError →
        TraceEvent.errorReported a.pk ∈ (runStep reg component es kwargs db a).1
        ∧ ((Addon.addon_class reg a).can_install component = true →
            (runStep reg component es kwargs db a).2.1 = db
            ∧ TraceEvent.removalRecorded a.pk ∉ (runStep reg component es kwargs db a).1
            ∧ TraceEvent.postUninstall a.pk ∉ (runStep reg component es kwargs db a).1)
        ∧ ((Addon.addon_class reg a).can_install component = false →
            TraceEvent.removalRecorded a.pk ∈ (runStep reg component es kwargs db a).1
            ∧ TraceEvent.postUninstall a.pk ∈ (runStep reg component es kwargs db a).1
            ∧ ∀ x ∈ ((runStep reg component es kwargs db a).2.1).addons, x.pk ≠ a.pk)) := by
  constructor
  · intro hr
    simp [dispatchLoop, runStep, hf, hr]
  · intro hr
    cases hci : (Addon.addon_class reg a).can_install component with
    | true =>
      refine ⟨?_, fun _ => ⟨?_, ?_, ?_⟩, fun hfalse => ?_⟩
      · simp [runStep, hf, hr, handle_addon_error, hci]
      · simp [runStep, hf, hr, handle_addon_error, hci]
      · simp [runStep, hf, hr, handle_addon_error, hci]
      · simp [runStep, hf, hr, handle_addon_error, hci]
      · exact Bool.noConfusion hfalse
    | false =>
      refine ⟨?_, fun htrue => ?_, fun _ => ⟨?_, ?_, ?_⟩⟩
      · cases hal : (Addon.addon_class reg a).alert <;>
          simp [runStep, hf, hr, handle_addon_error, Addon.disable, Addon.deleteRecord, hci, hal]
      · exact Bool.noConfusion htrue
      · cases hal : (Addon.addon_class reg a).alert <;>
          simp [runStep, hf, hr, handle_addon_error, Addon.disable, Addon.deleteRecord, hci, hal]
      · cases hal : (Addon.addon_class reg a).alert <;>
          simp [runStep, hf, hr, handle_addon_error, Addon.disable, Addon.deleteRecord, hci, hal]
      · intro x hx
        cases hal : (Addon.addon_class reg a).alert <;>
          simp [runStep, hf, hr, handle_addon_error, Addon.disable, Addon.deleteRecord, hci, hal]
            at hx <;>
          exact hx.2

/-- Closed instance of `c8_theorem`: the database-error add-on `adDb1`
aborts the loop with the database untouched. -/
theorem c8_witness :
    dispatchLoop regEx comp1 "pre_push" kwEx dbC1 [adDb1, adOk2]
      = ([TraceEvent.running adDb1.pk,
          TraceEvent.handlerCalled adDb1.pk (HandlerResult.raise ExcClass.dbError)],
         dbC1, true) :=
  (c8_theorem regEx comp1 "pre_push" kwEx dbC1 adDb1 [adOk2] hDb rfl).1 rfl

/-- Unfolding of the `get_or_create` loop on a first event. -/
theorem getOrCreateEvents_cons (pk e : Nat) (es : List Nat) (recs : List EventRec) :
    getOrCreateEvents pk (e :: es) recs
      = getOrCreateEvents pk es
          (if (⟨pk, e⟩ : EventRec) ∈ recs then recs else recs ++ [⟨pk, e⟩]) := rfl

/-- Membership after the `get_or_create` loop: the original records plus
one record per listed event. -/
theorem mem_getOrCreateEvents (pk : Nat) (events : List Nat) (recs : List EventRec)
    (x : EventRec) :
    x ∈ getOrCreateEvents pk events recs ↔ x ∈ recs ∨ ∃ e ∈ events, x = ⟨pk, e⟩ := by
  induction events generalizing recs with
  | nil => simp [getOrCreateEvents]
  | cons e es ih =>
    rw [getOrCreateEvents_cons, ih]
    by_cases hp : (⟨pk, e⟩ : EventRec) ∈ recs
    · rw [if_pos hp]
      simp only [List.mem_cons]
      constructor
      · rintro (hx | ⟨e', he', hxe⟩)
        · exact Or.inl hx
        · exact Or.inr ⟨e', Or.inr he', hxe⟩
      · rintro (hx | ⟨e', he' | he', hxe⟩)
        · exact Or.inl hx
        · subst he'
          exact Or.inl (hxe ▸ hp)
        · exact Or.inr ⟨e', he', hxe⟩
    · rw [if_neg hp]
      simp only [List.mem_append, List.mem_cons, List.not_mem_nil, or_false]
      constructor
      · rintro ((hx | hx) | ⟨e', he', hxe⟩)
        · exact Or.inl hx
        · exact Or.inr ⟨e, Or.inl rfl, hx⟩
        · exact Or.inr ⟨e', Or.inr he', hxe⟩
      · rintro (hx | ⟨e', he' | he', hxe⟩)
        · exact Or.inl (Or.inl hx)
        · subst he'
          exact Or.inl (Or.inr hxe)
        · exact Or.inr ⟨e', he', hxe⟩

/-- The `get_or_create` loop never duplicates a record. -/
theorem nodup_getOrCreateEvents (pk : Nat) (events : List Nat) (recs : List EventRec)
    (h : recs.Nodup) : (getOrCreateEvents pk events recs).Nodup := by
  induction events generalizing recs with
  | nil => exact h
  | cons e es ih =>
    rw [getOrCreateEvents_cons]
    by_cases hp : (⟨pk, e⟩ : EventRec) ∈ recs
    · rw [if_pos hp]
      exact ih recs h
    · rw [if_neg hp]
      refine ih _ ?_
      simp [List.nodup_append, h, hp]

/-- The `get_or_create` loop changes nothing when every listed event is
already subscribed. -/
theorem getOrCreateEvents_id (pk : Nat) (events : List Nat) (recs : List EventRec)
    (h : ∀ e ∈ events, (⟨pk, e⟩ : EventRec) ∈ recs) :
    getOrCreateEvents pk events recs = recs := by
  induction events with
  | nil => rfl
  | cons e es ih =>
    rw [getOrCreateEvents_cons, if_pos (h e (List.mem_cons_self e es))]
    exact ih (fun e' he' => h e' (List.mem_cons_of_mem e he'))

/-- C9: after `configure_events(events)`, the installation's
subscriptions are exactly the given events — a record `(a.pk, e)` exists
if and only if `e` is listed; other installations' records are
untouched; no duplicate `(addon, event)` record is created (the
uniqueness constraint is preserved); and running `configure_events`
again with the same events changes nothing. -/
theorem c9_theorem (db : DB) (a : Addon) (events : List Nat) (hnd : db.events.Nodup) :
    (∀ e, (⟨a.pk, e⟩ : EventRec) ∈ (Addon.configure_events db a events).events ↔ e ∈ events)
    ∧ (∀ r : EventRec, r.addon ≠ a.pk →
        (r ∈ (Addon.configure_events db a events).events ↔ r ∈ db.events))
    ∧ ((Addon.configure_events db a events).events).Nodup
    ∧ Addon.configure_events (Addon.configure_events db a events) a events
        = Addon.configure_events db a events := by
  refine ⟨?_, ?_, ?_, ?_⟩
  · intro e
    simp only [Addon.configure_events, List.mem_filter, mem_getOrCreateEvents,
      decide_eq_true_eq]
    constructor
    · rintro ⟨_, hkeep⟩
      rcases hkeep with habs | he
      · exact absurd rfl habs
      · exact he
    · intro he
      exact ⟨Or.inr ⟨e, he, rfl⟩, Or.inr he⟩
  · intro r hr
    simp only [Addon.configure_events, List.mem_filter, mem_getOrCreateEvents,
      decide_eq_true_eq]
    constructor
    · rintro ⟨hin | ⟨e, _, hre⟩, _⟩
      · exact hin
      · exact absurd (by rw [hre]) hr
    · intro hin
      exact ⟨Or.inl hin, Or.inl hr⟩
  · exact List.Nodup.filter _ (nodup_getOrCreateEvents a.pk events db.events hnd)
  · have hmem : ∀ e ∈ events,
        (⟨a.pk, e⟩ : EventRec) ∈ (Addon.configure_events db a events).events := by
      intro e he
      simp only [Addon.configure_events, List.mem_filter, mem_getOrCreateEvents,
        decide_eq_true_eq]
      exact ⟨Or.inr ⟨e, he, rfl⟩, Or.inr he⟩
    show Addon.configure_events (Addon.configure_events db a events) a events
      = Addon.configure_events db a events
    rw [Addon.configure_events]
    rw [getOrCreateEvents_id a.pk events (Addon.configure_events db a events).events hmem]
    have hfilter : ((Addon.configure_events db a events).events).filter
        (fun r => decide (r.addon ≠ a.pk ∨ r.event ∈ events))
        = (Addon.configure_events db a events).events := by
      apply List.filter_eq_self.mpr
      intro x hx
      have hx' : x ∈ (getOrCreateEvents a.pk events db.events).filter
          (fun r => decide (r.addon ≠ a.pk ∨ r.event ∈ events)) := hx
      simpa using List.of_mem_filter hx'
    rw [hfilter]

/-- Closed instance of `c9_theorem` on `dbC1`. -/
theorem c9_witness :
    ((⟨adOk2.pk, 1⟩ : EventRec) ∈ (Addon.configure_events dbC1 adOk2 [1, 2]).events
      ↔ (1 : Nat) ∈ [1, 2])
    ∧ Addon.configure_events (Addon.configure_events dbC1 adOk2 [1, 2]) adOk2 [1, 2]
        = Addon.configure_events dbC1 adOk2 [1, 2] :=
  ⟨(c9_theorem dbC1 adOk2 [1, 2] (by decide)).1 1,
   (c9_theorem dbC1 adOk2 [1, 2] (by decide)).2.2.2⟩
